import Mathlib

/-!
Verification development for the VictimCacheMissSimulator post-processing
pipeline (three Python scripts: `summarize_ss_results.py` (collector),
`normalize_data.py` (normalizer) and `normalize_and_plot_ss.py`
(normalizer + presenter)).

Shallow embedding conventions:
* Python floats are modelled as exact rationals (`ℚ`); the float `nan`
  sentinel (and a pandas missing cell) is `none` in `Option ℚ`.  Non-finite
  float literals (`"inf"`, `"nan"`) are outside the rational model and are
  treated as unparseable strings.
* A missing CSV cell / `None` is `none` in `Option String`.
* A pandas data frame is a `List` of row structures; column assignment is a
  `List.map`, row selection a `List.filter`, `groupby`+`agg` is grouping by
  key equality, and a left `merge` on a unique-keyed right table is a lookup.
-/

set_option maxRecDepth 4000

namespace CacheSim

/-! ### Python string and number primitives -/

/-- The characters stripped by Python's `str.strip()`. -/
def pySpace (c : Char) : Bool :=
  c = ' ' || c = '\t' || c = '\n' || c = '\x0d' || c = '\x0b' || c = '\x0c'

/-- ASCII branch of Python's `str.lower()`, applied characterwise:
uppercase `A`–`Z` (code points 65–90) map 32 code points up. -/
def lowerChar (c : Char) : Char :=
  if 65 ≤ c.toNat ∧ c.toNat ≤ 90 then Char.ofNat (c.toNat + 32) else c

/-- Python `str.strip()` on a character list. -/
def pyStripList (l : List Char) : List Char :=
  ((l.dropWhile pySpace).reverse.dropWhile pySpace).reverse

/-- Python `str.strip()`. -/
def pyStrip (s : String) : String := ⟨pyStripList s.data⟩

/-- Python `str.lower()` (ASCII). -/
def pyLower (s : String) : String := ⟨s.data.map lowerChar⟩

/-- Numeric value of a digit string. -/
def natOfDigits (ds : List Char) : ℕ :=
  ds.foldl (fun n c => 10 * n + (c.toNat - 48)) 0

/-! Mathlib's rational-number arithmetic operations are `@[irreducible]`, so
they do not evaluate inside the kernel.  The embedding therefore performs its
arithmetic with kernel-computable counterparts built from `mkRat` and integer
arithmetic; the bridge theorems `qadd_eq`, `qdiv_eq` and `qsum_eq` below
prove them equal to `+`, `/` and `List.sum` on `ℚ`, and the claim statements
are phrased with the standard operations. -/

/-- Kernel-computable addition on `ℚ` (provably `a + b`, see `qadd_eq`). -/
def qadd (a b : ℚ) : ℚ :=
  mkRat (a.num * (b.den : ℤ) + b.num * (a.den : ℤ)) (a.den * b.den)

/-- Kernel-computable division on `ℚ` (provably `a / b`, see `qdiv_eq`;
division by zero gives zero, as in Mathlib). -/
def qdiv (a b : ℚ) : ℚ :=
  if b.num < 0 then mkRat (-(a.num * (b.den : ℤ))) (a.den * b.num.natAbs)
  else mkRat (a.num * (b.den : ℤ)) (a.den * b.num.natAbs)

/-- Kernel-computable list sum on `ℚ` (provably `List.sum`, see `qsum_eq`). -/
def qsum : List ℚ → ℚ
  | [] => 0
  | x :: xs => qadd x (qsum xs)

/-- Exponent tail of a Python float literal: `[+-]?digits` and end of input;
scales the mantissa `num / den` by the power of ten. -/
def parseExpTail (num : ℤ) (den : ℕ) (r : List Char) : Option ℚ :=
  let (neg, r1) : Bool × List Char :=
    match r with
    | '+' :: r2 => (false, r2)
    | '-' :: r2 => (true, r2)
    | _ => (false, r)
  let (eds, r2) := r1.span Char.isDigit
  if eds.isEmpty || !r2.isEmpty then none
  else if neg then some (mkRat num (den * 10 ^ natOfDigits eds))
  else some (mkRat (num * 10 ^ natOfDigits eds) den)

/-- Python `float(s)` on a (already stripped) character list: an optional
sign, a decimal mantissa with at least one digit, and an optional exponent;
the result is the exact rational value denoted by the literal.  Non-finite
literals (`inf`, `nan`) are outside the rational model and yield `none`. -/
def parseFloatChars (s : List Char) : Option ℚ :=
  let (neg, s1) : Bool × List Char :=
    match s with
    | '+' :: r => (false, r)
    | '-' :: r => (true, r)
    | _ => (false, s)
  let (ip, s2) := s1.span Char.isDigit
  let (fp, s3) : List Char × List Char :=
    match s2 with
    | '.' :: r => r.span Char.isDigit
    | _ => ([], s2)
  if ip.isEmpty && fp.isEmpty then none
  else
    let mnum : ℤ := (natOfDigits ip * 10 ^ fp.length + natOfDigits fp : ℕ)
    let num : ℤ := if neg then -mnum else mnum
    let den : ℕ := 10 ^ fp.length
    match s3 with
    | [] => some (mkRat num den)
    | 'e' :: r => parseExpTail num den r
    | 'E' :: r => parseExpTail num den r
    | _ => none

/-- Python `float(s)` on a string. -/
def parseFloat (s : String) : Option ℚ := parseFloatChars s.data

/-- Python `int(s)`: optional surrounding whitespace, optional sign, digits. -/
def parseIntChars (s : List Char) : Option ℤ :=
  let t := pyStripList s
  let (sg, r) : ℤ × List Char :=
    match t with
    | '+' :: r => (1, r)
    | '-' :: r => (-1, r)
    | _ => (1, t)
  let (ds, rest) := r.span Char.isDigit
  if ds.isEmpty || !rest.isEmpty then none else some (sg * natOfDigits ds)

/-- Python `str.split(sep)` for a one-character separator: the (possibly
empty) chunks between separator occurrences. -/
def splitCols : List Char → List (List Char)
  | [] => [[]]
  | ':' :: rest => [] :: splitCols rest
  | c :: rest =>
    match splitCols rest with
    | [] => [[c]]
    | g :: gs => (c :: g) :: gs

/-- Python `int(x)` on a number: truncation toward zero (`Int.tdiv` of the
numerator by the denominator; provably `if 0 ≤ q then ⌊q⌋ else ⌈q⌉`, see
`pytrunc_eq`). -/
def pytrunc (q : ℚ) : ℤ := q.num.tdiv (q.den : ℤ)

/-- Numeric value of Python's fixed-point formatting to four decimals (the
value printed by an f-string with a .4f format): the multiple of 1/10000
nearest to `q`, halves rounded up (provably `round (q * 10000) / 10000`, see
`fmt4_eq`). -/
def fmt4 (q : ℚ) : ℚ :=
  mkRat ((2 * (q.num * 10000) + (q.den : ℤ)) / ((2 * q.den : ℕ) : ℤ)) 10000

/-! ### The cache-geometry token pattern

Both normalizer scripts compile the same case-insensitive pattern
(named CFG_RE there) matching a cache-geometry token
name `:` digits `:` digits `:` digits `:` policy-letter with name `dl1` or
`ul2` and policy letter one of `l`, `f`, `r`.  `cfgTokens` models
`CFG_RE.finditer`: a left-to-right scan collecting non-overlapping matches;
each returned token is already lowercased (the scripts lowercase
`m.group(0)` immediately). -/

/-- Match `digits+ ':'` at the head, returning the digits and the rest. -/
def numColon (s : List Char) : Option (List Char × List Char) :=
  let (ds, rest) := s.span Char.isDigit
  if ds.isEmpty then none
  else
    match rest with
    | ':' :: r2 => some (ds, r2)
    | _ => none

/-- Match a cache-level name `dl1:` or `ul2:` at the head, case-insensitively;
returns the lowercased name and the rest. -/
def geomName (s : List Char) : Option (List Char × List Char) :=
  match s with
  | c1 :: c2 :: c3 :: ':' :: rest =>
    let n := [lowerChar c1, lowerChar c2, lowerChar c3]
    if n = ['d', 'l', '1'] ∨ n = ['u', 'l', '2'] then some (n, rest) else none
  | _ => none

/-- Match one full cache-geometry token at the head of the input; returns the
lowercased matched text and the remaining input. -/
def matchGeom (s : List Char) : Option (List Char × List Char) :=
  match geomName s with
  | none => none
  | some (n, r0) =>
    match numColon r0 with
    | none => none
    | some (d1, r1) =>
      match numColon r1 with
      | none => none
      | some (d2, r2) =>
        match numColon r2 with
        | none => none
        | some (d3, r3) =>
          match r3 with
          | [] => none
          | p :: r4 =>
            let pl := lowerChar p
            if pl = 'l' ∨ pl = 'f' ∨ pl = 'r' then
              some (n ++ ':' :: d1 ++ ':' :: d2 ++ ':' :: d3 ++ [':', pl], r4)
            else none

/-- Fuelled scan for `finditer`: at each position try a match; on success
continue after the match, otherwise advance one character. -/
def cfgTokensAux : ℕ → List Char → List (List Char)
  | 0, _ => []
  | _, [] => []
  | fuel + 1, c :: cs =>
    match matchGeom (c :: cs) with
    | some (tok, rest) => tok :: cfgTokensAux fuel rest
    | none => cfgTokensAux fuel cs

/-- All (lowercased) cache-geometry tokens of a tag, left to right. -/
def cfgTokens (s : List Char) : List (List Char) := cfgTokensAux s.length s

/-! ### The knob pattern

Both normalizer scripts extract knob values with patterns of the shape
"at a position preceded by an underscore or the string start: the knob
letters, then digits, then an underscore or the string end"; the scanned
string is lowercased first. -/

/-- Try the knob body (knob letters `p`, digits, then `_` or end) at the
current position. -/
def knobHere (p : List Char) (s : List Char) : Option ℕ :=
  match p, s with
  | [], rest =>
    let (ds, r2) := rest.span Char.isDigit
    if ds.isEmpty then none
    else
      match r2 with
      | [] => some (natOfDigits ds)
      | '_' :: _ => some (natOfDigits ds)
      | _ => none
  | a :: p2, b :: s2 => if a = b then knobHere p2 s2 else none
  | _ :: _, [] => none

/-- Continue a knob search at positions whose preceding character is `_`. -/
def knobScan (p : List Char) : List Char → Option ℕ
  | [] => none
  | '_' :: rest =>
    match knobHere p rest with
    | some n => some n
    | none => knobScan p rest
  | _ :: rest => knobScan p rest

/-- Leftmost knob match in the whole string (the string-start alternative
first, then every position preceded by an underscore). -/
def knobSearch (p : List Char) (s : List Char) : Option ℕ :=
  match knobHere p s with
  | some n => some n
  | none => knobScan p s

/-! ### Shared data-frame schema

Both normalizer scripts consume the collector's summary CSV and add the same
columns, so the row schemas are shared here.  `CsvRow` is a row of the summary
CSV as read by pandas (cells are optional strings; a missing cell is `none`);
`Row` is a row after mode standardization, config parsing and numeric
conversion; `NormRow` adds the four baseline-mean and four normalized-ratio
columns; `FinalRow` adds the has-baseline flag column of normalize_data.py. -/

structure CsvRow where
  benchmark : String
  mode : String
  config : String
  dl1_miss_rate : Option String
  ul2_miss_rate : Option String
  sim_CPI : Option String
  vc_hit_rate : Option String
  mc_hit_rate : Option String
  sb_hit_rate : Option String
  ul2_total_accesses : Option String
deriving DecidableEq

structure Row where
  benchmark : String
  mode : String
  config : String
  dl1_cfg : Option String
  ul2_cfg : Option String
  dl1_bytes : Option ℚ
  ul2_bytes : Option ℚ
  vc_entries : Option ℚ
  mc_entries : Option ℚ
  sb_depth : Option ℚ
  dl1_miss_rate : Option ℚ
  ul2_miss_rate : Option ℚ
  sim_CPI : Option ℚ
  vc_hit_rate : Option ℚ
  mc_hit_rate : Option ℚ
  sb_hit_rate : Option ℚ
  ul2_total_accesses : Option ℚ
  ul2_demand : Option ℚ
deriving DecidableEq

structure NormRow extends Row where
  dl1_miss_base : Option ℚ
  ul2_miss_base : Option ℚ
  ul2_demand_base : Option ℚ
  cpi_base : Option ℚ
  dl1_miss_norm : Option ℚ
  ul2_miss_norm : Option ℚ
  ul2_demand_norm : Option ℚ
  cpi_norm : Option ℚ
deriving DecidableEq

structure FinalRow extends NormRow where
  has_baseline_for_cachepoint : Bool
deriving DecidableEq

/-- The four aggregate columns of the baseline table built by
`groupby(key).agg(...)` in `normalize_against_baseline`. -/
structure Agg where
  dl1_miss_base : Option ℚ
  ul2_miss_base : Option ℚ
  ul2_demand_base : Option ℚ
  cpi_base : Option ℚ
deriving DecidableEq

/-- The `(benchmark, dl1_cfg, ul2_cfg)` grouping/join key. -/
abbrev CacheKey := String × Option String × Option String

/-- The join key of a row. -/
def rowKey (r : Row) : CacheKey := (r.benchmark, r.dl1_cfg, r.ul2_cfg)

/-- pandas column mean: skip undefined entries; the mean of no defined
entries is undefined. -/
def meanOpt (xs : List (Option ℚ)) : Option ℚ :=
  let vs := xs.filterMap id
  if vs.isEmpty then none else some (qdiv (qsum vs) (vs.length : ℚ))

/-- Group keys in order of appearance, without duplicates. -/
def dedupKeys : List CacheKey → List CacheKey
  | [] => []
  | k :: ks => k :: (dedupKeys ks).filter (fun k2 => decide ¬(k2 = k))

/-- Lookup in the unique-keyed baseline aggregate table (the left `merge`). -/
def findAgg : List (CacheKey × Agg) → CacheKey → Option Agg
  | [], _ => none
  | (k, a) :: rest, k2 => if k = k2 then some a else findAgg rest k2

/-! ### Collector (`summarize_ss_results.py`) -/

namespace SS

/-- Raw fields of one row of one per-configuration result CSV, as returned by
`csv.DictReader` (`row.get(...)` is `none` when the column is absent). -/
structure CollectorRow where
  benchmark : Option String
  mode : Option String
  vc_lookups : Option String
  vc_hits : Option String
  mc_lookups : Option String
  mc_hits : Option String
  sb_lookups : Option String
  sb_hits : Option String
  sb_prefetches : Option String
  ul2_d_accesses : Option String
  ul2_i_accesses : Option String
deriving DecidableEq

/-- The collector's row of derived values (string passthrough fields are kept
as their stripped strings; the derived numeric outputs are modelled by their
numeric values, `none` standing for the empty-string output). -/
structure OutRow where
  benchmark : String
  mode : String
  vc_lookups : String
  vc_hits : String
  vc_hit_rate : Option ℚ
  mc_lookups : String
  mc_hits : String
  mc_hit_rate : Option ℚ
  sb_lookups : String
  sb_hits : String
  sb_hit_rate : Option ℚ
  ul2_d_accesses : String
  ul2_i_accesses : String
  ul2_total_accesses : Option ℤ
deriving DecidableEq

/-- `(row.get(k) or "").strip()`. -/
def fieldStr (x : Option String) : String := pyStrip (x.getD "")

/-- `safe_float` of the collector: convert to float, `None` on empty or
invalid. -/
def safe_float (val : String) : Option ℚ :=
  let s := pyStrip val
  if s = "" then none else parseFloat s

/-- One of the three identical inline hit-rate blocks of the collector's
`main`: defined only when the lookups value is a defined number, is positive,
and the hits value is a defined number; then `hits / lookups` formatted to
four decimals. -/
def hitRate (lookups hits : String) : Option ℚ :=
  match safe_float lookups, safe_float hits with
  | some l, some h => if 0 < l then some (fmt4 (qdiv h l)) else none
  | _, _ => none

/-- The `ul2_total` block of the collector's `main`: the `or 0.0` fallback
maps an undefined (or zero) parse to `0.0`, which coincides with
`(safe_float _).getD 0`; the sum is passed through `int(...)`
(truncation toward zero) before being written.  Undefined (empty output)
exactly when both (already stripped) access fields are empty. -/
def ul2Total (d i : String) : Option ℤ :=
  if d ≠ "" ∨ i ≠ "" then
    some (pytrunc (qadd ((safe_float d).getD 0) ((safe_float i).getD 0)))
  else none

/-- The per-row body of the collector's `main` loop: strip every raw field,
then compute the three hit rates and the total UL2 accesses. -/
def processRow (c : CollectorRow) : OutRow :=
  let vcL := fieldStr c.vc_lookups
  let vcH := fieldStr c.vc_hits
  let mcL := fieldStr c.mc_lookups
  let mcH := fieldStr c.mc_hits
  let sbL := fieldStr c.sb_lookups
  let sbH := fieldStr c.sb_hits
  let u2d := fieldStr c.ul2_d_accesses
  let u2i := fieldStr c.ul2_i_accesses
  { benchmark := fieldStr c.benchmark
    mode := fieldStr c.mode
    vc_lookups := vcL
    vc_hits := vcH
    vc_hit_rate := hitRate vcL vcH
    mc_lookups := mcL
    mc_hits := mcH
    mc_hit_rate := hitRate mcL mcH
    sb_lookups := sbL
    sb_hits := sbH
    sb_hit_rate := hitRate sbL sbH
    ul2_d_accesses := u2d
    ul2_i_accesses := u2i
    ul2_total_accesses := ul2Total u2d u2i }

/-- Specification predicate for one derived hit-rate output: the output is
undefined when the lookups value is undefined or non-positive; for a defined
positive lookups value it is the hits value divided by it, formatted to four
decimals (so it is undefined exactly when the hits value is). -/
def hrSpec (lookups hits : String) (out : Option ℚ) : Prop :=
  (safe_float lookups = none → out = none)
  ∧ (∀ l : ℚ, safe_float lookups = some l → l ≤ 0 → out = none)
  ∧ (∀ l : ℚ, safe_float lookups = some l → 0 < l →
      out = (safe_float hits).map (fun h => fmt4 (h / l)))

end SS

/-! ### Normalizer (`normalize_data.py`) -/

namespace ND

/-- Modes to exclude (`EXCLUDE_MODES`). -/
def EXCLUDE_MODES : List String := ["stream_multi"]

/-- Reference level-1 cache point (`REF_DL1`), for reporting. -/
def REF_DL1 : String := "dl1:1024:32:1:l"

/-- Reference level-2 cache point (`REF_UL2`), for reporting. -/
def REF_UL2 : String := "ul2:16384:64:4:l"

/-- `_to_float`: `none` for a missing cell (`pd.isna`), for an
empty/whitespace string, and for an unparseable string; otherwise the parsed
value. -/
def _to_float (x : Option String) : Option ℚ :=
  match x with
  | none => none
  | some v =>
    let s := pyStrip v
    if s = "" then none else parseFloat s

/-- The loop body of `parse_cache_cfg`: a token starting with the level-1
marker overwrites the level-1 slot, else one starting with the level-2
marker overwrites the level-2 slot. -/
def cfgStep (acc : Option (List Char) × Option (List Char)) (t : List Char) :
    Option (List Char) × Option (List Char) :=
  if t.take 4 = ['d', 'l', '1', ':'] then (some t, acc.2)
  else if t.take 4 = ['u', 'l', '2', ':'] then (acc.1, some t)
  else acc

/-- `parse_cache_cfg`: scan the tag with the cache-geometry pattern and keep,
per level, the last (lowercased) matching token. -/
def parse_cache_cfg (config_str : String) : Option String × Option String :=
  let r := (cfgTokens config_str.data).foldl cfgStep (none, none)
  (r.1.map (fun l => (⟨l⟩ : String)), r.2.map (fun l => (⟨l⟩ : String)))

/-- `cache_bytes`: capacity in bytes of a `name:nsets:bsize:assoc:repl`
config string; undefined for a missing/empty/short/unparseable config. -/
def cache_bytes (cache_cfg : Option String) : Option ℚ :=
  match cache_cfg with
  | none => none
  | some c =>
    if c = "" then none
    else
      match splitCols c.data with
      | _ :: p1 :: p2 :: p3 :: _ :: _ =>
        match parseIntChars p1, parseIntChars p2, parseIntChars p3 with
        | some nsets, some bsize, some assoc => some (((nsets * bsize * assoc : ℤ) : ℚ))
        | _, _, _ => none
      | _ => none

/-- `parse_knobs`: the three independent optional knob extractions
(victim-cache entries, miss-cache entries, stream-buffer depth) from the
lowercased tag. -/
def parse_knobs (config_str : String) : Option ℚ × Option ℚ × Option ℚ :=
  let s := (pyLower config_str).data
  ((knobSearch ['v', 'c'] s).map (fun n => (n : ℚ)),
   (knobSearch ['m', 'c'] s).map (fun n => (n : ℚ)),
   (knobSearch ['d'] s).map (fun n => (n : ℚ)))

/-- The `safe_div` nested in `normalize_against_baseline`: undefined unless
both operands are defined and the denominator is non-zero; otherwise the
exact quotient.  (`_to_float` applied to an already numeric column value is
the identity of this model.) -/
def safe_div (a b : Option ℚ) : Option ℚ :=
  match a, b with
  | some a0, some b0 => if b0 = 0 then none else some (qdiv a0 b0)
  | _, _ => none

/-- The rows whose mode is the literal baseline string. -/
def baselineRows (df : List Row) : List Row :=
  df.filter (fun r => decide (r.mode = "baseline"))

/-- The four per-group aggregate means. -/
def aggOf (g : List Row) : Agg :=
  { dl1_miss_base := meanOpt (g.map (fun r => r.dl1_miss_rate))
    ul2_miss_base := meanOpt (g.map (fun r => r.ul2_miss_rate))
    ul2_demand_base := meanOpt (g.map (fun r => r.ul2_demand))
    cpi_base := meanOpt (g.map (fun r => r.sim_CPI)) }

/-- The `base` table of `normalize_against_baseline`: baseline rows grouped
by the three-part key (`dropna=False`: undefined key components group like
values), with the mean of each of the four metrics per group. -/
def base_table (df : List Row) : List (CacheKey × Agg) :=
  let b := baselineRows df
  (dedupKeys (b.map rowKey)).map
    (fun k => (k, aggOf (b.filter (fun r => decide (rowKey r = k)))))

/-- Extend one row with the merged baseline columns (undefined for an
unmatched left row) and the four safe-div ratio columns. -/
def mergeRow (r : Row) (a? : Option Agg) : NormRow :=
  let a := a?.getD { dl1_miss_base := none, ul2_miss_base := none,
                     ul2_demand_base := none, cpi_base := none }
  { toRow := r
    dl1_miss_base := a.dl1_miss_base
    ul2_miss_base := a.ul2_miss_base
    ul2_demand_base := a.ul2_demand_base
    cpi_base := a.cpi_base
    dl1_miss_norm := safe_div r.dl1_miss_rate a.dl1_miss_base
    ul2_miss_norm := safe_div r.ul2_miss_rate a.ul2_miss_base
    ul2_demand_norm := safe_div r.ul2_demand a.ul2_demand_base
    cpi_norm := safe_div r.sim_CPI a.cpi_base }

/-- `normalize_against_baseline`: build the baseline aggregate table, left
merge it onto the full row set on the three-part key, and add the four
normalized-ratio columns. -/
def normalize_against_baseline (df : List Row) : List NormRow :=
  let base := base_table df
  df.map (fun r => mergeRow r (findAgg base (rowKey r)))

/-- Mode standardization of `main`: `.astype(str).str.strip().str.lower()`. -/
def standardize_mode (s : String) : String := pyLower (pyStrip s)

/-- The parsing/derivation part of `main` for one (retained) row: parse the
cache configs and knobs from the config tag, convert the numeric columns and
set `ul2_demand` to the total UL2 accesses. -/
def mkRow (c : CsvRow) : Row :=
  let cfgs := parse_cache_cfg c.config
  let knobs := parse_knobs c.config
  { benchmark := c.benchmark
    mode := c.mode
    config := c.config
    dl1_cfg := cfgs.1
    ul2_cfg := cfgs.2
    dl1_bytes := cache_bytes cfgs.1
    ul2_bytes := cache_bytes cfgs.2
    vc_entries := knobs.1
    mc_entries := knobs.2.1
    sb_depth := knobs.2.2
    dl1_miss_rate := _to_float c.dl1_miss_rate
    ul2_miss_rate := _to_float c.ul2_miss_rate
    sim_CPI := _to_float c.sim_CPI
    vc_hit_rate := _to_float c.vc_hit_rate
    mc_hit_rate := _to_float c.mc_hit_rate
    sb_hit_rate := _to_float c.sb_hit_rate
    ul2_total_accesses := _to_float c.ul2_total_accesses
    ul2_demand := _to_float c.ul2_total_accesses }

/-- `main` up to (and including) the parsing steps: standardize the mode
column, drop rows whose mode is excluded, then parse/convert every kept
row. -/
def processed (input : List CsvRow) : List Row :=
  (((input.map (fun c => { c with mode := standardize_mode c.mode }))
    |>.filter (fun c => decide (c.mode ∉ EXCLUDE_MODES)))
    |>.map mkRow)

/-- `main`'s normalized output table: the normalized rows plus the
`has_baseline_for_cachepoint` column (negation of `dl1_miss_base.isna()`). -/
def main_rows (input : List CsvRow) : List FinalRow :=
  (normalize_against_baseline (processed input)).map
    (fun o => { toNormRow := o, has_baseline_for_cachepoint := o.dl1_miss_base.isSome })

end ND

/-! ### Normalizer + presenter (`normalize_and_plot_ss.py`)

The parsing and normalization code of this script is a byte-for-byte
duplicate of the one in `normalize_data.py`; it is embedded again, from its
own source, for the equivalence claim. -/

namespace NP

/-- Modes to exclude (`EXCLUDE_MODES`). -/
def EXCLUDE_MODES : List String := ["stream_multi"]

/-- Reference level-1 cache point (`REF_DL1`). -/
def REF_DL1 : String := "dl1:1024:32:1:l"

/-- Reference level-2 cache point (`REF_UL2`). -/
def REF_UL2 : String := "ul2:16384:64:4:l"

/-- Reference victim-cache entry count (`REF_VC`). -/
def REF_VC : ℚ := 4

/-- Reference miss-cache entry count (`REF_MC`). -/
def REF_MC : ℚ := 4

/-- Reference stream-buffer depth (`REF_SB_DEPTH`). -/
def REF_SB_DEPTH : ℚ := 4

/-- `_to_float` of the plot script (same body as in `normalize_data.py`). -/
def _to_float (x : Option String) : Option ℚ :=
  match x with
  | none => none
  | some v =>
    let s := pyStrip v
    if s = "" then none else parseFloat s

/-- The loop body of the plot script's `parse_cache_cfg`. -/
def cfgStep (acc : Option (List Char) × Option (List Char)) (t : List Char) :
    Option (List Char) × Option (List Char) :=
  if t.take 4 = ['d', 'l', '1', ':'] then (some t, acc.2)
  else if t.take 4 = ['u', 'l', '2', ':'] then (acc.1, some t)
  else acc

/-- `parse_cache_cfg` of the plot script. -/
def parse_cache_cfg (config_str : String) : Option String × Option String :=
  let r := (cfgTokens config_str.data).foldl cfgStep (none, none)
  (r.1.map (fun l => (⟨l⟩ : String)), r.2.map (fun l => (⟨l⟩ : String)))

/-- `cache_bytes` of the plot script. -/
def cache_bytes (cache_cfg : Option String) : Option ℚ :=
  match cache_cfg with
  | none => none
  | some c =>
    if c = "" then none
    else
      match splitCols c.data with
      | _ :: p1 :: p2 :: p3 :: _ :: _ =>
        match parseIntChars p1, parseIntChars p2, parseIntChars p3 with
        | some nsets, some bsize, some assoc => some (((nsets * bsize * assoc : ℤ) : ℚ))
        | _, _, _ => none
      | _ => none

/-- `parse_knobs` of the plot script. -/
def parse_knobs (config_str : String) : Option ℚ × Option ℚ × Option ℚ :=
  let s := (pyLower config_str).data
  ((knobSearch ['v', 'c'] s).map (fun n => (n : ℚ)),
   (knobSearch ['m', 'c'] s).map (fun n => (n : ℚ)),
   (knobSearch ['d'] s).map (fun n => (n : ℚ)))

/-- `safe_div` nested in the plot script's `normalize_against_baseline`. -/
def safe_div (a b : Option ℚ) : Option ℚ :=
  match a, b with
  | some a0, some b0 => if b0 = 0 then none else some (qdiv a0 b0)
  | _, _ => none

/-- Baseline rows of the plot script's normalization. -/
def baselineRows (df : List Row) : List Row :=
  df.filter (fun r => decide (r.mode = "baseline"))

/-- Per-group aggregates of the plot script's normalization. -/
def aggOf (g : List Row) : Agg :=
  { dl1_miss_base := meanOpt (g.map (fun r => r.dl1_miss_rate))
    ul2_miss_base := meanOpt (g.map (fun r => r.ul2_miss_rate))
    ul2_demand_base := meanOpt (g.map (fun r => r.ul2_demand))
    cpi_base := meanOpt (g.map (fun r => r.sim_CPI)) }

/-- The `base` table of the plot script's normalization. -/
def base_table (df : List Row) : List (CacheKey × Agg) :=
  let b := baselineRows df
  (dedupKeys (b.map rowKey)).map
    (fun k => (k, aggOf (b.filter (fun r => decide (rowKey r = k)))))

/-- Row extension of the plot script's normalization. -/
def mergeRow (r : Row) (a? : Option Agg) : NormRow :=
  let a := a?.getD { dl1_miss_base := none, ul2_miss_base := none,
                     ul2_demand_base := none, cpi_base := none }
  { toRow := r
    dl1_miss_base := a.dl1_miss_base
    ul2_miss_base := a.ul2_miss_base
    ul2_demand_base := a.ul2_demand_base
    cpi_base := a.cpi_base
    dl1_miss_norm := safe_div r.dl1_miss_rate a.dl1_miss_base
    ul2_miss_norm := safe_div r.ul2_miss_rate a.ul2_miss_base
    ul2_demand_norm := safe_div r.ul2_demand a.ul2_demand_base
    cpi_norm := safe_div r.sim_CPI a.cpi_base }

/-- `normalize_against_baseline` of the plot script. -/
def normalize_against_baseline (df : List Row) : List NormRow :=
  let base := base_table df
  df.map (fun r => mergeRow r (findAgg base (rowKey r)))

/-- Mode standardization of the plot script's `main`. -/
def standardize_mode (s : String) : String := pyLower (pyStrip s)

/-- Row parsing/derivation of the plot script's `main`. -/
def mkRow (c : CsvRow) : Row :=
  let cfgs := parse_cache_cfg c.config
  let knobs := parse_knobs c.config
  { benchmark := c.benchmark
    mode := c.mode
    config := c.config
    dl1_cfg := cfgs.1
    ul2_cfg := cfgs.2
    dl1_bytes := cache_bytes cfgs.1
    ul2_bytes := cache_bytes cfgs.2
    vc_entries := knobs.1
    mc_entries := knobs.2.1
    sb_depth := knobs.2.2
    dl1_miss_rate := _to_float c.dl1_miss_rate
    ul2_miss_rate := _to_float c.ul2_miss_rate
    sim_CPI := _to_float c.sim_CPI
    vc_hit_rate := _to_float c.vc_hit_rate
    mc_hit_rate := _to_float c.mc_hit_rate
    sb_hit_rate := _to_float c.sb_hit_rate
    ul2_total_accesses := _to_float c.ul2_total_accesses
    ul2_demand := _to_float c.ul2_total_accesses }

/-- The plot script's `main` up to the normalized table `norm`. -/
def processed (input : List CsvRow) : List Row :=
  (((input.map (fun c => { c with mode := standardize_mode c.mode }))
    |>.filter (fun c => decide (c.mode ∉ EXCLUDE_MODES)))
    |>.map mkRow)

/-- The normalized table `norm` written (and charted) by the plot script. -/
def norm_rows (input : List CsvRow) : List NormRow :=
  normalize_against_baseline (processed input)

/-- `filter_ref_knobs_for_mode`: restrict the slice of rows of the given
mode to the reference knob values of that mode; unknown modes pass through
unfiltered. -/
def filter_ref_knobs_for_mode (df : List NormRow) (mode : String) : List NormRow :=
  let g := df.filter (fun r => decide (r.mode = mode))
  if mode = "baseline" then g
  else if mode = "victim" then
    g.filter (fun r => decide (r.vc_entries = some REF_VC))
  else if mode = "miss" then
    g.filter (fun r => decide (r.mc_entries = some REF_MC))
  else if mode = "stream" then
    g.filter (fun r => decide (r.sb_depth = some REF_SB_DEPTH))
  else if mode = "victim_stream" then
    g.filter (fun r => decide (r.vc_entries = some REF_VC) && decide (r.sb_depth = some REF_SB_DEPTH))
  else if mode = "miss_stream" then
    g.filter (fun r => decide (r.mc_entries = some REF_MC) && decide (r.sb_depth = some REF_SB_DEPTH))
  else g

/-- Mode strings in order of appearance, without duplicates
(`df["mode"].unique()`). -/
def uniqueModes : List String → List String
  | [] => []
  | m :: ms => m :: (uniqueModes ms).filter (fun m2 => decide ¬(m2 = m))

/-- Insert into a sorted list of strings (for `sorted(...)`). -/
def insSorted (s : String) : List String → List String
  | [] => [s]
  | t :: ts => if s < t then s :: t :: ts else t :: insSorted s ts

/-- `sorted(...)` on strings. -/
def sortStrings (l : List String) : List String := l.foldr insSorted []

/-- `filter_ref_knobs_all_modes`: concatenate the per-mode reference slices
over the sorted distinct modes of the table (an empty table yields an empty
slice). -/
def filter_ref_knobs_all_modes (df : List NormRow) : List NormRow :=
  let modes := sortStrings (uniqueModes (df.map (fun r => r.mode)))
  if modes.isEmpty then []
  else (modes.map (fun m => filter_ref_knobs_for_mode df m)).flatten

end NP

/-! ### Concrete inputs for witnesses and counterexamples -/

/-- A collector input row whose only defined counters are the victim-cache
lookup/hit pair. -/
def exCollVC : SS.CollectorRow :=
  { benchmark := some "gcc", mode := some "victim",
    vc_lookups := some "4", vc_hits := some "2",
    mc_lookups := none, mc_hits := none,
    sb_lookups := none, sb_hits := none, sb_prefetches := none,
    ul2_d_accesses := none, ul2_i_accesses := none }

/-- A collector input row with a fractional level-2 demand-access field and
an absent instruction-access field. -/
def exCollC4 : SS.CollectorRow :=
  { benchmark := some "gcc", mode := some "victim",
    vc_lookups := none, vc_hits := none,
    mc_lookups := none, mc_hits := none,
    sb_lookups := none, sb_hits := none, sb_prefetches := none,
    ul2_d_accesses := some "0.5", ul2_i_accesses := none }

/-- A normalizer-level test row, with everything fixed except the mode and
the level-1 miss rate. -/
def mkTestRow (mode : String) (dl1m : Option ℚ) : Row :=
  { benchmark := "gcc", mode := mode, config := "cfg",
    dl1_cfg := some "dl1:16:32:1:l", ul2_cfg := some "ul2:16384:64:4:l",
    dl1_bytes := none, ul2_bytes := none,
    vc_entries := none, mc_entries := none, sb_depth := none,
    dl1_miss_rate := dl1m, ul2_miss_rate := some (mkRat 1 5),
    sim_CPI := some (mkRat 3 2),
    vc_hit_rate := none, mc_hit_rate := none, sb_hit_rate := none,
    ul2_total_accesses := some 100, ul2_demand := some 100 }

/-- The key of the test rows built by `mkTestRow`. -/
def exKey : CacheKey := ("gcc", some "dl1:16:32:1:l", some "ul2:16384:64:4:l")

/-- A two-row frame: one baseline row and one victim row at the same key. -/
def exDfC1 : List Row :=
  [mkTestRow "baseline" (some (mkRat 1 10)), mkTestRow "victim" (some (mkRat 2 25))]

/-- A CSV-level test row, with everything fixed except the benchmark, mode,
config tag and level-1 miss rate. -/
def mkTestCsv (mode cfg : String) (dl1m : Option String) : CsvRow :=
  { benchmark := "gcc", mode := mode, config := cfg,
    dl1_miss_rate := dl1m, ul2_miss_rate := some "0.2", sim_CPI := some "1.5",
    vc_hit_rate := none, mc_hit_rate := none, sb_hit_rate := none,
    ul2_total_accesses := some "100" }

/-- A one-row input whose single victim row has no baseline at its key. -/
def exInC5 : List CsvRow :=
  [mkTestCsv "victim" "victim_vc8__dl1:1024:32:1:l__ul2:16384:64:4:l" (some "0.08")]

/-- A two-row input where a baseline row exists at the victim row's key but
its level-1 miss-rate cell is empty (so the baseline mean of that metric is
undefined). -/
def exInC5ce : List CsvRow :=
  [mkTestCsv "baseline" "baseline__dl1:1024:32:1:l__ul2:16384:64:4:l" none,
   mkTestCsv "victim" "victim_vc8__dl1:1024:32:1:l__ul2:16384:64:4:l" (some "0.08")]

/-- An input containing an excluded-mode row (with surrounding whitespace and
mixed case) next to an ordinary row. -/
def exInC9 : List CsvRow :=
  [mkTestCsv " Stream_Multi " "stream_multi_d4__dl1:1024:32:1:l__ul2:16384:64:4:l" (some "0.5"),
   mkTestCsv "victim" "victim_vc8__dl1:1024:32:1:l__ul2:16384:64:4:l" (some "0.08")]

/-- A default row (used only as the fallback of `List.headD`). -/
def defaultFinalRow : FinalRow :=
  { toRow := mkTestRow "x" none,
    dl1_miss_base := none, ul2_miss_base := none, ul2_demand_base := none,
    cpi_base := none, dl1_miss_norm := none, ul2_miss_norm := none,
    ul2_demand_norm := none, cpi_norm := none,
    has_baseline_for_cachepoint := false }

/-- Specification-side restatement of the per-mode reference-knob condition
of `filter_ref_knobs_for_mode`, as a single boolean predicate. -/
def refKnobOk (mode : String) (r : NormRow) : Bool :=
  if mode = "baseline" then true
  else if mode = "victim" then decide (r.vc_entries = some NP.REF_VC)
  else if mode = "miss" then decide (r.mc_entries = some NP.REF_MC)
  else if mode = "stream" then decide (r.sb_depth = some NP.REF_SB_DEPTH)
  else if mode = "victim_stream" then
    decide (r.vc_entries = some NP.REF_VC) && decide (r.sb_depth = some NP.REF_SB_DEPTH)
  else if mode = "miss_stream" then
    decide (r.mc_entries = some NP.REF_MC) && decide (r.sb_depth = some NP.REF_SB_DEPTH)
  else true

/-! ### Bridge lemmas: the kernel-computable arithmetic is the standard one -/

/-- `qadd` is addition on `ℚ`. -/
theorem qadd_eq (a b : ℚ) : qadd a b = a + b := by
  have ha : ((a.den : ℕ) : ℚ) ≠ 0 := Nat.cast_ne_zero.mpr (Rat.den_ne_zero a)
  have hb : ((b.den : ℕ) : ℚ) ≠ 0 := Nat.cast_ne_zero.mpr (Rat.den_ne_zero b)
  rw [qadd, Rat.mkRat_eq_div]
  conv_rhs => rw [← Rat.num_div_den a, ← Rat.num_div_den b]
  push_cast
  field_simp
  try ring

/-- `qdiv` is division on `ℚ` (with division by zero giving zero). -/
theorem qdiv_eq (a b : ℚ) : qdiv a b = a / b := by
  have ha : ((a.den : ℕ) : ℚ) ≠ 0 := Nat.cast_ne_zero.mpr (Rat.den_ne_zero a)
  rcases lt_trichotomy b.num 0 with hb | hb | hb
  · have h1 : ((b.num.natAbs : ℕ) : ℤ) = -b.num := Int.ofNat_natAbs_of_nonpos hb.le
    have h1q : ((b.num.natAbs : ℕ) : ℚ) = -(b.num : ℚ) := by
      have h2 := congrArg (fun z : ℤ => (z : ℚ)) h1
      simp only [Int.cast_natCast, Int.cast_neg] at h2
      exact h2
    have hbn : (b.num : ℚ) ≠ 0 := by
      simpa using (Int.cast_ne_zero (α := ℚ)).mpr (ne_of_lt hb)
    rw [qdiv, if_pos hb, Rat.mkRat_eq_div]
    conv_rhs => rw [← Rat.num_div_den a, ← Rat.num_div_den b]
    push_cast [h1q]
    have hbd : ((b.den : ℕ) : ℚ) ≠ 0 := Nat.cast_ne_zero.mpr (Rat.den_ne_zero b)
    field_simp
    try ring
  · have hb0 : b = 0 := Rat.num_eq_zero.mp hb
    rw [hb0, div_zero, qdiv]
    simp [hb, mkRat]
  · have h1 : ((b.num.natAbs : ℕ) : ℤ) = b.num := Int.natAbs_of_nonneg hb.le
    have h1q : ((b.num.natAbs : ℕ) : ℚ) = (b.num : ℚ) := by
      have h2 := congrArg (fun z : ℤ => (z : ℚ)) h1
      simp only [Int.cast_natCast, Int.cast_neg] at h2
      exact h2
    have hbn : (b.num : ℚ) ≠ 0 := by
      simpa using (Int.cast_ne_zero (α := ℚ)).mpr (ne_of_gt hb)
    rw [qdiv, if_neg (not_lt.mpr hb.le), Rat.mkRat_eq_div]
    conv_rhs => rw [← Rat.num_div_den a, ← Rat.num_div_den b]
    push_cast [h1q]
    have hbd : ((b.den : ℕ) : ℚ) ≠ 0 := Nat.cast_ne_zero.mpr (Rat.den_ne_zero b)
    field_simp
    try ring

/-- `qsum` is `List.sum` on `ℚ`. -/
theorem qsum_eq : ∀ l : List ℚ, qsum l = l.sum := by
  intro l
  induction l with
  | nil => rfl
  | cons x xs ih => rw [qsum, qadd_eq, ih, List.sum_cons]

/-- `pytrunc` is truncation toward zero. -/
theorem pytrunc_eq (q : ℚ) : pytrunc q = if 0 ≤ q then ⌊q⌋ else ⌈q⌉ := by
  rw [pytrunc]
  by_cases h : 0 ≤ q
  · rw [if_pos h, Rat.floor_def]
    exact Int.tdiv_eq_ediv (Rat.num_nonneg.mpr h) (Int.natCast_nonneg q.den)
  · rw [if_neg h]
    have hq : q.num < 0 := Rat.num_neg.mpr (lt_of_not_le h)
    have h2 : q.num.tdiv (q.den : ℤ) = -((-q.num).tdiv (q.den : ℤ)) := by
      rw [← Int.neg_tdiv, neg_neg]
    have h3 : (⌈q⌉ : ℤ) = -⌊-q⌋ := by
      rw [Int.floor_neg]
      ring
    rw [h2, Int.tdiv_eq_ediv (by omega) (Int.natCast_nonneg q.den), h3, Rat.floor_def]
    rfl

/-- `fmt4` is rounding to four decimal places. -/
theorem fmt4_eq (q : ℚ) : fmt4 q = ((round (q * 10000) : ℤ) : ℚ) / 10000 := by
  have hd : ((q.den : ℕ) : ℚ) ≠ 0 := Nat.cast_ne_zero.mpr (Rat.den_ne_zero q)
  have key : (2 * (q.num * 10000) + (q.den : ℤ)) / ((2 * q.den : ℕ) : ℤ)
      = round (q * 10000) := by
    have hq : q * 10000 + 1 / 2
        = ((2 * (q.num * 10000) + (q.den : ℤ) : ℤ) : ℚ) / ((2 * q.den : ℕ) : ℚ) := by
      conv_lhs => rw [← Rat.num_div_den q]
      push_cast
      field_simp
      ring
    rw [round_eq, hq, Rat.floor_intCast_div_natCast]
  rw [fmt4, Rat.mkRat_eq_div, key]
  norm_num

/-- `meanOpt` is the arithmetic mean of the defined entries. -/
theorem meanOpt_eq (xs : List (Option ℚ)) :
    meanOpt xs = if (xs.filterMap id).isEmpty then none
      else some ((xs.filterMap id).sum / ((xs.filterMap id).length : ℚ)) := by
  unfold meanOpt
  simp only [qdiv_eq, qsum_eq]

/-! ### Claim C6: parsing the worked example tag -/

/-- C6: parsing the tag
`victim_stream_vc8_d4__dl1:1024:32:1:l__ul2:16384:64:4:l` yields level-1
config `dl1:1024:32:1:l`, level-1 capacity 32768, vc_entries 8, sb_depth 4
and an undefined mc_entries. -/
theorem C6_parse_example_tag :
    ND.parse_cache_cfg "victim_stream_vc8_d4__dl1:1024:32:1:l__ul2:16384:64:4:l"
      = (some "dl1:1024:32:1:l", some "ul2:16384:64:4:l")
    ∧ ND.cache_bytes (ND.parse_cache_cfg
        "victim_stream_vc8_d4__dl1:1024:32:1:l__ul2:16384:64:4:l").1 = some 32768
    ∧ ND.parse_knobs "victim_stream_vc8_d4__dl1:1024:32:1:l__ul2:16384:64:4:l"
      = (some 8, none, some 4) := by
  refine ⟨by decide, by decide, by decide⟩

/-! ### Claim C2: the safe-division rule -/

/-- C2: `safe_div` is undefined iff an operand is undefined or the
denominator is exactly zero, is the exact quotient otherwise, and is the
rule computing all four normalized-ratio columns of
`normalize_against_baseline`. -/
theorem C2_safe_div_spec :
    (∀ a b : Option ℚ, ND.safe_div a b = none ↔ a = none ∨ b = none ∨ b = some 0)
    ∧ (∀ x y : ℚ, y ≠ 0 → ND.safe_div (some x) (some y) = some (x / y))
    ∧ (∀ (df : List Row) (o : NormRow), o ∈ ND.normalize_against_baseline df →
        o.dl1_miss_norm = ND.safe_div o.dl1_miss_rate o.dl1_miss_base
        ∧ o.ul2_miss_norm = ND.safe_div o.ul2_miss_rate o.ul2_miss_base
        ∧ o.ul2_demand_norm = ND.safe_div o.ul2_demand o.ul2_demand_base
        ∧ o.cpi_norm = ND.safe_div o.sim_CPI o.cpi_base) := by
  refine ⟨?_, ?_, ?_⟩
  · intro a b
    rcases a with _ | a0 <;> rcases b with _ | b0 <;> simp [ND.safe_div]
  · intro x y hy
    simp [ND.safe_div, hy, qdiv_eq]
  · intro df o ho
    simp only [ND.normalize_against_baseline, List.mem_map] at ho
    obtain ⟨r, -, rfl⟩ := ho
    exact ⟨rfl, rfl, rfl, rfl⟩

/-- Witness for C2 at concrete inputs. -/
theorem C2_safe_div_spec_witness :
    ND.safe_div (some 3) (some 2) = some (3 / 2) :=
  C2_safe_div_spec.2.1 3 2 (by norm_num)

/-! ### Claim C3: the derived hit rates -/

/-- C3: each of the three derived hit rates of the collector is undefined
whenever the lookups value is undefined or non-positive, and otherwise is
hits divided by lookups at four-decimal precision. -/
theorem C3_hit_rate_spec :
    ∀ c : SS.CollectorRow,
      SS.hrSpec (SS.fieldStr c.vc_lookups) (SS.fieldStr c.vc_hits)
        ((SS.processRow c).vc_hit_rate)
      ∧ SS.hrSpec (SS.fieldStr c.mc_lookups) (SS.fieldStr c.mc_hits)
        ((SS.processRow c).mc_hit_rate)
      ∧ SS.hrSpec (SS.fieldStr c.sb_lookups) (SS.fieldStr c.sb_hits)
        ((SS.processRow c).sb_hit_rate) := by
  have key : ∀ L H : String, SS.hrSpec L H (SS.hitRate L H) := by
    intro L H
    refine ⟨?_, ?_, ?_⟩
    · intro h0
      simp [SS.hitRate, h0]
    · intro l hl hle
      rcases hH : SS.safe_float H with _ | h
      · simp [SS.hitRate, hl, hH]
      · simp [SS.hitRate, hl, hH, if_neg (not_lt.mpr hle)]
    · intro l hl hpos
      rcases hH : SS.safe_float H with _ | h
      · simp [SS.hitRate, hl, hH]
      · simp [SS.hitRate, hl, hH, hpos, qdiv_eq]
  intro c
  exact ⟨key _ _, key _ _, key _ _⟩

/-- Witness for C3 at a concrete collector row: 2 hits out of 4 lookups give
hit rate one half. -/
theorem C3_hit_rate_spec_witness :
    (SS.processRow exCollVC).vc_hit_rate = some (1 / 2) := by
  have h := (C3_hit_rate_spec exCollVC).1.2.2 4 (by decide) (by norm_num)
  rw [show SS.safe_float (SS.fieldStr exCollVC.vc_hits) = some 2 from by decide] at h
  simp only [Option.map_some'] at h
  rw [h]
  have h2 : fmt4 ((2 : ℚ) / 4) = 1 / 2 := by
    rw [fmt4_eq]
    norm_num [round_eq]
  rw [h2]

/-! ### Claim C4: the derived total accesses -/

/-- C4 counterexample: for the row with demand-access field "0.5" and absent
instruction-access field, the collector emits total accesses 0 while the
numeric sum of the components is one half — the output is the truncation of
the sum, not the sum. -/
theorem C4_total_accesses_counterexample :
    (SS.processRow exCollC4).ul2_total_accesses = some 0
    ∧ (SS.safe_float (SS.fieldStr exCollC4.ul2_d_accesses)).getD 0
        + (SS.safe_float (SS.fieldStr exCollC4.ul2_i_accesses)).getD 0 = (1 : ℚ) / 2
    ∧ ¬ ((SS.processRow exCollC4).ul2_total_accesses).map (fun z => (z : ℚ))
        = some ((1 : ℚ) / 2) := by
  have h1 : (SS.processRow exCollC4).ul2_total_accesses = some 0 := by decide
  have hd : SS.safe_float (SS.fieldStr exCollC4.ul2_d_accesses) = some (mkRat 1 2) := by decide
  have hi : SS.safe_float (SS.fieldStr exCollC4.ul2_i_accesses) = none := by decide
  refine ⟨h1, ?_, ?_⟩
  · rw [hd, hi]
    norm_num [Rat.mkRat_eq_div]
  · rw [h1]
    intro h
    have h2 : ((0 : ℤ) : ℚ) = (1 : ℚ) / 2 := Option.some.inj h
    norm_num at h2

/-- C4 amended: the total-access value is undefined exactly when both access
fields are absent (empty after stripping); otherwise it is the sum of the
components' numeric values (an absent or unparseable component contributing
0) truncated toward zero to an integer. -/
theorem C4_total_accesses_amended :
    ∀ c : SS.CollectorRow,
      ((SS.processRow c).ul2_total_accesses = none ↔
        SS.fieldStr c.ul2_d_accesses = "" ∧ SS.fieldStr c.ul2_i_accesses = "")
      ∧ (SS.fieldStr c.ul2_d_accesses ≠ "" ∨ SS.fieldStr c.ul2_i_accesses ≠ "" →
          (SS.processRow c).ul2_total_accesses =
            some (pytrunc ((SS.safe_float (SS.fieldStr c.ul2_d_accesses)).getD 0
              + (SS.safe_float (SS.fieldStr c.ul2_i_accesses)).getD 0))) := by
  intro c
  have hrw : (SS.processRow c).ul2_total_accesses
      = SS.ul2Total (SS.fieldStr c.ul2_d_accesses) (SS.fieldStr c.ul2_i_accesses) := rfl
  rw [hrw]
  unfold SS.ul2Total
  split_ifs with h
  · refine ⟨?_, fun _ => by rw [qadd_eq]⟩
    constructor
    · intro h2
      exact h2.elim
    · intro h2
      rcases h with h3 | h3
      · exact absurd h2.1 h3
      · exact absurd h2.2 h3
  · push_neg at h
    refine ⟨by simp [h.1, h.2], ?_⟩
    intro h2
    rcases h2 with h2 | h2
    · exact absurd h.1 h2
    · exact absurd h.2 h2

/-- Witness for the amended C4 at the concrete fractional-field row. -/
theorem C4_total_accesses_amended_witness :
    (SS.processRow exCollC4).ul2_total_accesses = some 0 := by
  have h := (C4_total_accesses_amended exCollC4).2 (by decide)
  have hd : SS.safe_float (SS.fieldStr exCollC4.ul2_d_accesses) = some (mkRat 1 2) := by decide
  have hi : SS.safe_float (SS.fieldStr exCollC4.ul2_i_accesses) = none := by decide
  rw [hd, hi] at h
  simp only [Option.getD_some, Option.getD_none, add_zero] at h
  rw [h]
  exact congrArg some (by decide)

/-! ### Claim C10: the two scripts' duplicated normalization code agrees -/

/-- C10: the four functions duplicated between `normalize_data.py` and
`normalize_and_plot_ss.py` (config parsing, capacity computation, knob
parsing and baseline normalization) are extensionally identical. -/
theorem C10_duplicated_normalizer_equiv :
    ND.parse_cache_cfg = NP.parse_cache_cfg
    ∧ ND.cache_bytes = NP.cache_bytes
    ∧ ND.parse_knobs = NP.parse_knobs
    ∧ ND.normalize_against_baseline = NP.normalize_against_baseline :=
  ⟨rfl, rfl, rfl, rfl⟩

/-! ### Claim C7: last match wins per level -/

/-- Prepending to a list moves `getLast?` to an `Option.or` fallback. -/
theorem getLast?_cons_or {α : Type} (a : α) (l : List α) :
    (a :: l).getLast? = l.getLast?.or (some a) := by
  induction l generalizing a with
  | nil => rfl
  | cons b bs ih =>
    rw [List.getLast?_cons_cons, ih b, Option.or_assoc]
    rfl

/-- The fold of `parse_cache_cfg` keeps, per level, the last token starting
with that level's marker (falling back to the accumulator). -/
theorem foldl_cfgStep (toks : List (List Char)) (d u : Option (List Char)) :
    toks.foldl ND.cfgStep (d, u) =
      (((toks.filter (fun t => decide (t.take 4 = ['d', 'l', '1', ':']))).getLast?).or d,
       ((toks.filter (fun t => decide (t.take 4 = ['u', 'l', '2', ':']))).getLast?).or u) := by
  induction toks generalizing d u with
  | nil => simp
  | cons t ts ih =>
    rw [List.foldl_cons]
    by_cases hd : t.take 4 = ['d', 'l', '1', ':']
    · have hu : ¬ t.take 4 = ['u', 'l', '2', ':'] := by
        rw [hd]
        decide
      have hfd : (t :: ts).filter (fun t2 => decide (t2.take 4 = ['d', 'l', '1', ':']))
          = t :: ts.filter (fun t2 => decide (t2.take 4 = ['d', 'l', '1', ':'])) := by
        simp [List.filter_cons, hd]
      have hfu : (t :: ts).filter (fun t2 => decide (t2.take 4 = ['u', 'l', '2', ':']))
          = ts.filter (fun t2 => decide (t2.take 4 = ['u', 'l', '2', ':'])) := by
        simp [List.filter_cons, hu]
      rw [show ND.cfgStep (d, u) t = (some t, u) from by simp [ND.cfgStep, hd]]
      rw [ih, hfd, hfu, getLast?_cons_or, Option.or_assoc]
      rfl
    · by_cases hu : t.take 4 = ['u', 'l', '2', ':']
      · have hfd : (t :: ts).filter (fun t2 => decide (t2.take 4 = ['d', 'l', '1', ':']))
            = ts.filter (fun t2 => decide (t2.take 4 = ['d', 'l', '1', ':'])) := by
          simp [List.filter_cons, hd]
        have hfu : (t :: ts).filter (fun t2 => decide (t2.take 4 = ['u', 'l', '2', ':']))
            = t :: ts.filter (fun t2 => decide (t2.take 4 = ['u', 'l', '2', ':'])) := by
          simp [List.filter_cons, hu]
        rw [show ND.cfgStep (d, u) t = (d, some t) from by simp [ND.cfgStep, hd, hu]]
        rw [ih, hfd, hfu, getLast?_cons_or, Option.or_assoc]
        rfl
      · have hfd : (t :: ts).filter (fun t2 => decide (t2.take 4 = ['d', 'l', '1', ':']))
            = ts.filter (fun t2 => decide (t2.take 4 = ['d', 'l', '1', ':'])) := by
          simp [List.filter_cons, hd]
        have hfu : (t :: ts).filter (fun t2 => decide (t2.take 4 = ['u', 'l', '2', ':']))
            = ts.filter (fun t2 => decide (t2.take 4 = ['u', 'l', '2', ':'])) := by
          simp [List.filter_cons, hu]
        rw [show ND.cfgStep (d, u) t = (d, u) from by simp [ND.cfgStep, hd, hu]]
        rw [ih, hfd, hfu]

/-- C7: `parse_cache_cfg` returns, for each cache level, the last token of
the tag matching that level's pattern (last match wins per level), for every
input tag. -/
theorem C7_last_match_wins :
    ∀ s : String,
      ND.parse_cache_cfg s =
        ((((cfgTokens s.data).filter
            (fun t => decide (t.take 4 = ['d', 'l', '1', ':']))).getLast?).map
              (fun l => (⟨l⟩ : String)),
         (((cfgTokens s.data).filter
            (fun t => decide (t.take 4 = ['u', 'l', '2', ':']))).getLast?).map
              (fun l => (⟨l⟩ : String))) := by
  intro s
  unfold ND.parse_cache_cfg
  rw [foldl_cfgStep]
  simp

/-! ### Claim C8: reference-knob filtering is idempotent -/

/-- `filter_ref_knobs_for_mode` is one filter over the table: mode equality
together with the per-mode reference-knob condition. -/
theorem NP_filter_ref_eq (df : List NormRow) (m : String) :
    NP.filter_ref_knobs_for_mode df m
      = df.filter (fun r => decide (r.mode = m) && refKnobOk m r) := by
  simp only [NP.filter_ref_knobs_for_mode, refKnobOk]
  split_ifs <;> simp [List.filter_filter, Bool.and_comm]

/-- C8: applying the reference-knob filter for a mode to a slice it has
already produced returns that slice unchanged, for every table and mode. -/
theorem C8_filter_ref_idempotent :
    ∀ (df : List NormRow) (mode : String),
      NP.filter_ref_knobs_for_mode (NP.filter_ref_knobs_for_mode df mode) mode
        = NP.filter_ref_knobs_for_mode df mode := by
  intro df mode
  rw [NP_filter_ref_eq, NP_filter_ref_eq, List.filter_filter]
  congr 1
  funext r
  exact Bool.and_self _

/-! ### Claim C1: the baseline aggregate is the baseline-row mean -/

/-- Membership in the deduplicated key list is membership in the original. -/
theorem mem_dedupKeys (l : List CacheKey) (k : CacheKey) :
    k ∈ dedupKeys l ↔ k ∈ l := by
  induction l with
  | nil => simp [dedupKeys]
  | cons k0 ks ih =>
    by_cases hk : k = k0
    · subst hk
      simp [dedupKeys]
    · simp [dedupKeys, List.mem_filter, hk, ih]

/-- Looking up a key present in a keyed table built by mapping over a key
list returns the tabulated value. -/
theorem findAgg_map (f : CacheKey → Agg) (l : List CacheKey) (k : CacheKey)
    (h : k ∈ l) :
    findAgg (l.map (fun k2 => (k2, f k2))) k = some (f k) := by
  induction l with
  | nil => cases h
  | cons k0 ks ih =>
    rw [List.map_cons]
    by_cases h0 : k0 = k
    · subst h0
      simp [findAgg]
    · have hks : k ∈ ks := by
        rcases List.mem_cons.mp h with h1 | h1
        · exact absurd h1.symm h0
        · exact h1
      simp [findAgg, h0, ih hks]

/-- Looking up a key absent from the key list gives nothing. -/
theorem findAgg_map_not_mem (f : CacheKey → Agg) (l : List CacheKey)
    (k : CacheKey) (h : k ∉ l) :
    findAgg (l.map (fun k2 => (k2, f k2))) k = none := by
  induction l with
  | nil => rfl
  | cons k0 ks ih =>
    have h0 : ¬ k0 = k := fun he => h (he ▸ List.mem_cons_self k0 ks)
    have hks : k ∉ ks := fun hm => h (List.mem_cons_of_mem _ hm)
    simp [findAgg, h0, ih hks]

/-- The baseline rows of a key, grouped, are the rows of the whole frame in
baseline mode at that key. -/
theorem baselineRows_key_filter (df : List Row) (k : CacheKey) :
    (ND.baselineRows df).filter (fun r => decide (rowKey r = k))
      = df.filter (fun r => decide (r.mode = "baseline" ∧ rowKey r = k)) := by
  rw [ND.baselineRows, List.filter_filter]
  congr 1
  funext r
  by_cases h1 : r.mode = "baseline" <;> by_cases h2 : rowKey r = k <;>
    simp [h1, h2]

/-- Appending a non-baseline row does not change the baseline rows. -/
theorem baselineRows_append_non_baseline (df : List Row) (r2 : Row)
    (h : r2.mode ≠ "baseline") :
    ND.baselineRows (df ++ [r2]) = ND.baselineRows df := by
  rw [ND.baselineRows, ND.baselineRows, List.filter_append]
  simp [h]

/-- C1: for every key present among baseline-mode rows, the four baseline
aggregates produced by the grouping step of `normalize_against_baseline` are
the means of the four metrics over exactly the baseline-mode rows at that
key, and appending a row of any non-baseline mode leaves the whole baseline
table (hence every baseline mean) unchanged. -/
theorem C1_baseline_mean :
    ∀ (df : List Row) (k : CacheKey),
      (∃ r ∈ df, r.mode = "baseline" ∧ rowKey r = k) →
      (findAgg (ND.base_table df) k = some
        { dl1_miss_base := meanOpt ((df.filter
            (fun r => decide (r.mode = "baseline" ∧ rowKey r = k))).map
              (fun r => r.dl1_miss_rate))
          ul2_miss_base := meanOpt ((df.filter
            (fun r => decide (r.mode = "baseline" ∧ rowKey r = k))).map
              (fun r => r.ul2_miss_rate))
          ul2_demand_base := meanOpt ((df.filter
            (fun r => decide (r.mode = "baseline" ∧ rowKey r = k))).map
              (fun r => r.ul2_demand))
          cpi_base := meanOpt ((df.filter
            (fun r => decide (r.mode = "baseline" ∧ rowKey r = k))).map
              (fun r => r.sim_CPI)) })
      ∧ (∀ r2 : Row, r2.mode ≠ "baseline" →
          ND.base_table (df ++ [r2]) = ND.base_table df) := by
  intro df k h
  constructor
  · obtain ⟨r, hr, hmode, hkey⟩ := h
    have hb : r ∈ ND.baselineRows df :=
      List.mem_filter.mpr ⟨hr, by simp [hmode]⟩
    have hk : k ∈ (ND.baselineRows df).map rowKey :=
      List.mem_map.mpr ⟨r, hb, hkey⟩
    have hk2 : k ∈ dedupKeys ((ND.baselineRows df).map rowKey) :=
      (mem_dedupKeys _ _).mpr hk
    simp only [ND.base_table]
    rw [findAgg_map _ _ _ hk2]
    rw [ND.aggOf, baselineRows_key_filter]
  · intro r2 hr2
    simp only [ND.base_table, baselineRows_append_non_baseline df r2 hr2]

/-- Witness for C1 on a two-row frame (baseline mean one tenth at the key;
appending a victim row leaves the baseline table unchanged). -/
theorem C1_baseline_mean_witness :
    findAgg (ND.base_table exDfC1) exKey = some
      { dl1_miss_base := some (mkRat 1 10), ul2_miss_base := some (mkRat 1 5),
        ul2_demand_base := some 100, cpi_base := some (mkRat 3 2) }
    ∧ mkRat 1 10 = (1 : ℚ) / 10
    ∧ ND.base_table (exDfC1 ++ [mkTestRow "victim" none]) = ND.base_table exDfC1 := by
  have h := C1_baseline_mean exDfC1 exKey (by decide)
  exact ⟨h.1.trans (by decide), by rw [Rat.mkRat_eq_div]; norm_num,
    h.2 (mkTestRow "victim" none) (by decide)⟩

/-! ### Claim C5: rows without a baseline at their key -/

/-- The pandas mean of a column slice is undefined exactly when every entry
is undefined. -/
theorem meanOpt_eq_none (xs : List (Option ℚ)) :
    meanOpt xs = none ↔ ∀ x ∈ xs, x = none := by
  have key : (xs.filterMap id).isEmpty = true ↔ ∀ x ∈ xs, x = none := by
    rw [List.isEmpty_iff, List.filterMap_eq_nil_iff]
    simp only [id_eq]
  unfold meanOpt
  dsimp only
  split_ifs with h
  · exact iff_of_true rfl (key.mp h)
  · exact iff_of_false (by simp) (fun hall => h (key.mpr hall))

/-- The merged level-1 baseline-mean column of a row is defined exactly when
some baseline-mode row at the row's key has a defined level-1 miss rate. -/
theorem dl1_base_isSome_iff (df : List Row) (r : Row) :
    (ND.mergeRow r (findAgg (ND.base_table df) (rowKey r))).dl1_miss_base ≠ none ↔
      ∃ rb ∈ df, rb.mode = "baseline" ∧ rowKey rb = rowKey r
        ∧ rb.dl1_miss_rate ≠ none := by
  by_cases hk : rowKey r ∈ (ND.baselineRows df).map rowKey
  · have hfind : findAgg (ND.base_table df) (rowKey r)
        = some (ND.aggOf ((ND.baselineRows df).filter
            (fun rb => decide (rowKey rb = rowKey r)))) := by
      simp only [ND.base_table]
      exact findAgg_map _ _ _ ((mem_dedupKeys _ _).mpr hk)
    rw [hfind]
    simp only [ND.mergeRow, Option.getD_some, ND.aggOf]
    rw [Ne, meanOpt_eq_none]
    push_neg
    constructor
    · rintro ⟨x, hx, hxn⟩
      rcases List.mem_map.mp hx with ⟨rb, hrb, rfl⟩
      rcases List.mem_filter.mp hrb with ⟨hrb1, hrb2⟩
      rcases List.mem_filter.mp (by exact hrb1 : rb ∈ ND.baselineRows df) with ⟨hrb3, hrb4⟩
      exact ⟨rb, List.mem_filter.mp hrb1 |>.1, by simpa using List.mem_filter.mp hrb1 |>.2,
        by simpa using hrb2, hxn⟩
    · rintro ⟨rb, hrb, hbm, hbk, hdl⟩
      refine ⟨rb.dl1_miss_rate, List.mem_map.mpr ⟨rb, ?_, rfl⟩, hdl⟩
      refine List.mem_filter.mpr ⟨List.mem_filter.mpr ⟨hrb, by simp [hbm]⟩, by simp [hbk]⟩
  · have hfind : findAgg (ND.base_table df) (rowKey r) = none := by
      simp only [ND.base_table]
      exact findAgg_map_not_mem _ _ _ (fun hm => hk ((mem_dedupKeys _ _).mp hm))
    rw [hfind]
    simp only [ND.mergeRow, Option.getD_none]
    constructor
    · intro hfalse
      exact absurd rfl hfalse
    · rintro ⟨rb, hrb, hbm, hbk, -⟩
      exact absurd (List.mem_map.mpr ⟨rb, List.mem_filter.mpr ⟨hrb, by simp [hbm]⟩, hbk⟩) hk

/-- C5 counterexample: in `exInC5ce` a baseline-mode row exists at the
victim row's key (shown concretely), yet the victim row's
`has_baseline_for_cachepoint` flag is `false` — the flag does not record
whether a baseline existed for the key, only whether the baseline mean of
the level-1 miss rate is defined. -/
theorem C5_flag_counterexample :
    ((ND.main_rows exInC5ce).getD 1 defaultFinalRow).has_baseline_for_cachepoint = false
    ∧ ((ND.processed exInC5ce).getD 0 (mkTestRow "x" none)).mode = "baseline"
    ∧ rowKey ((ND.processed exInC5ce).getD 0 (mkTestRow "x" none))
        = (((ND.main_rows exInC5ce).getD 1 defaultFinalRow).benchmark,
           ((ND.main_rows exInC5ce).getD 1 defaultFinalRow).dl1_cfg,
           ((ND.main_rows exInC5ce).getD 1 defaultFinalRow).ul2_cfg) := by
  refine ⟨by decide, by decide, by decide⟩

/-- C5 amended: for every output row of the normalizer whose key matches no
baseline-mode row, the four normalized columns are undefined and the
has-baseline flag is false; and in general the flag is true exactly when
some baseline-mode row at the key has a defined level-1 miss rate (not
merely when a baseline row exists). -/
theorem C5_missing_baseline_amended :
    ∀ (input : List CsvRow) (o : FinalRow), o ∈ ND.main_rows input →
      ((¬ ∃ r ∈ ND.processed input, r.mode = "baseline"
          ∧ rowKey r = (o.benchmark, o.dl1_cfg, o.ul2_cfg)) →
        o.dl1_miss_norm = none ∧ o.ul2_miss_norm = none
        ∧ o.ul2_demand_norm = none ∧ o.cpi_norm = none
        ∧ o.has_baseline_for_cachepoint = false)
      ∧ (o.has_baseline_for_cachepoint = true ↔
          ∃ r ∈ ND.processed input, r.mode = "baseline"
            ∧ rowKey r = (o.benchmark, o.dl1_cfg, o.ul2_cfg)
            ∧ r.dl1_miss_rate ≠ none) := by
  intro input o ho
  simp only [ND.main_rows, List.mem_map] at ho
  obtain ⟨n, hn, rfl⟩ := ho
  simp only [ND.normalize_against_baseline, List.mem_map] at hn
  obtain ⟨r, hr, rfl⟩ := hn
  constructor
  · intro hnb
    have hk : rowKey r ∉ (ND.baselineRows (ND.processed input)).map rowKey := by
      intro hmem
      rcases List.mem_map.mp hmem with ⟨rb, hrb, hrbk⟩
      rcases List.mem_filter.mp hrb with ⟨hrb1, hrb2⟩
      exact hnb ⟨rb, hrb1, by simpa using hrb2, hrbk⟩
    have hfind : findAgg (ND.base_table (ND.processed input)) (rowKey r) = none := by
      simp only [ND.base_table]
      exact findAgg_map_not_mem _ _ _ (fun hm => hk ((mem_dedupKeys _ _).mp hm))
    refine ⟨?_, ?_, ?_, ?_, ?_⟩ <;> simp [ND.mergeRow, hfind, ND.safe_div]
  · have base := dl1_base_isSome_iff (ND.processed input) r
    constructor
    · intro hflag
      refine (base.mp ?_)
      intro hcon
      rw [show (ND.mergeRow r (findAgg (ND.base_table (ND.processed input)) (rowKey r))).dl1_miss_base = none from hcon] at hflag
      simp at hflag
    · intro hex
      have h2 := base.mpr hex
      rcases Option.ne_none_iff_exists.mp h2 with ⟨v, hv⟩
      simp [← hv]

/-- Witness for the amended C5 on the one-row input without a baseline: all
four normalized columns are undefined and the flag is false. -/
theorem C5_missing_baseline_amended_witness :
    ((ND.main_rows exInC5).headD defaultFinalRow).dl1_miss_norm = none
    ∧ ((ND.main_rows exInC5).headD defaultFinalRow).ul2_miss_norm = none
    ∧ ((ND.main_rows exInC5).headD defaultFinalRow).ul2_demand_norm = none
    ∧ ((ND.main_rows exInC5).headD defaultFinalRow).cpi_norm = none
    ∧ ((ND.main_rows exInC5).headD defaultFinalRow).has_baseline_for_cachepoint = false := by
  exact (C5_missing_baseline_amended exInC5
    ((ND.main_rows exInC5).headD defaultFinalRow) (by decide)).1 (by decide)

/-! ### Claim C9: excluded modes never reach an output -/

/-- Dropping a prefix of failing elements twice is dropping it once. -/
theorem dropWhile_idem {α : Type} (p : α → Bool) (l : List α) :
    (l.dropWhile p).dropWhile p = l.dropWhile p := by
  induction l with
  | nil => rfl
  | cons a t ih =>
    by_cases h : p a = true
    · simp [List.dropWhile_cons, h, ih]
    · simp [List.dropWhile_cons, h]

/-- A list unchanged by `dropWhile` has a head failing the predicate. -/
theorem dropWhile_head_false {α : Type} (p : α → Bool) (l : List α)
    (h : l.dropWhile p = l) :
    ∀ a t, l = a :: t → p a = false := by
  intro a t hl
  subst hl
  have h0 := (List.dropWhile_eq_self_iff.mp h) (by simp)
  exact eq_false_of_ne_true (by simpa using h0)

/-- Lowercasing does not change whether a character is whitespace. -/
theorem lowerChar_pySpace (c : Char) : pySpace (lowerChar c) = pySpace c := by
  by_cases hsp : pySpace c = true
  · have hc : c = ' ' ∨ c = '\t' ∨ c = '\n' ∨ c = '\x0d' ∨ c = '\x0b' ∨ c = '\x0c' := by
      simpa [pySpace, decide_eq_true_eq, or_assoc] using hsp
    rcases hc with rfl | rfl | rfl | rfl | rfl | rfl <;> decide
  · have hc : pySpace c = false := eq_false_of_ne_true hsp
    rw [hc, lowerChar]
    split_ifs with h
    · obtain ⟨h1, h2⟩ := h
      generalize c.toNat = n at h1 h2 ⊢
      interval_cases n <;> decide
    · exact hc

/-- Stripping commutes with lowercasing. -/
theorem pyStripList_map_lower (l : List Char) :
    pyStripList (l.map lowerChar) = (pyStripList l).map lowerChar := by
  have hpf : (pySpace ∘ lowerChar) = pySpace := funext lowerChar_pySpace
  simp only [pyStripList, List.dropWhile_map, ← List.map_reverse, hpf]

/-- Lowercasing a character twice is lowercasing it once. -/
theorem lowerChar_idem (c : Char) : lowerChar (lowerChar c) = lowerChar c := by
  by_cases h : 65 ≤ c.toNat ∧ c.toNat ≤ 90
  · have hc : lowerChar c = Char.ofNat (c.toNat + 32) := by
      rw [lowerChar, if_pos h]
    rw [hc]
    obtain ⟨h1, h2⟩ := h
    generalize c.toNat = n at h1 h2 ⊢
    interval_cases n <;> decide
  · have hc : lowerChar c = c := by
      rw [lowerChar, if_neg h]
    rw [hc]
    exact hc

/-- Stripping a stripped list changes nothing. -/
theorem pyStripList_idem (l : List Char) :
    pyStripList (pyStripList l) = pyStripList l := by
  have hA : (l.dropWhile pySpace).dropWhile pySpace = l.dropWhile pySpace :=
    dropWhile_idem pySpace l
  have hpre : ((l.dropWhile pySpace).reverse.dropWhile pySpace).reverse
      <+: l.dropWhile pySpace := by
    have hsuf := List.dropWhile_suffix (l := (l.dropWhile pySpace).reverse) pySpace
    have h2 := List.reverse_prefix.mpr hsuf
    rwa [List.reverse_reverse] at h2
  have hR : (pyStripList l).dropWhile pySpace = pyStripList l := by
    rcases hre : pyStripList l with _ | ⟨b, t2⟩
    · rfl
    · obtain ⟨t, ht⟩ := hpre
      rw [show ((l.dropWhile pySpace).reverse.dropWhile pySpace).reverse
          = pyStripList l from rfl, hre] at ht
      have hb : pySpace b = false :=
        dropWhile_head_false pySpace (l.dropWhile pySpace) hA b (t2 ++ t) ht.symm
      rw [List.dropWhile_cons, hb]
      simp
  have hrev : (pyStripList l).reverse = (l.dropWhile pySpace).reverse.dropWhile pySpace := by
    show (((l.dropWhile pySpace).reverse.dropWhile pySpace).reverse).reverse = _
    rw [List.reverse_reverse]
  show ((((pyStripList l).dropWhile pySpace).reverse).dropWhile pySpace).reverse
      = pyStripList l
  rw [hR, hrev, dropWhile_idem, ← hrev, List.reverse_reverse]

/-- Mode standardization (strip, then lowercase) is idempotent. -/
theorem strip_lower_idem (s : String) :
    pyLower (pyStrip (pyLower (pyStrip s))) = pyLower (pyStrip s) := by
  unfold pyLower pyStrip
  dsimp only
  rw [pyStripList_map_lower, pyStripList_idem, List.map_map]
  congr 1
  exact List.map_congr_left (fun a _ => lowerChar_idem a)

/-- Provenance of the modes of the normalizer's output rows: every output
row's mode is the standardized mode of an input row and passed the
exclusion filter. -/
theorem ND_main_rows_mode (input : List CsvRow) (o : FinalRow)
    (ho : o ∈ ND.main_rows input) :
    o.mode ∉ ND.EXCLUDE_MODES ∧ ∃ c ∈ input, o.mode = ND.standardize_mode c.mode := by
  simp only [ND.main_rows, List.mem_map] at ho
  obtain ⟨n, hn, rfl⟩ := ho
  simp only [ND.normalize_against_baseline, List.mem_map] at hn
  obtain ⟨r, hr, rfl⟩ := hn
  simp only [ND.processed, List.mem_map, List.mem_filter, decide_eq_true_eq] at hr
  obtain ⟨c1, ⟨⟨c0, hc0, rfl⟩, hf⟩, rfl⟩ := hr
  exact ⟨hf, c0, hc0, rfl⟩

/-- Provenance of the modes of the plot script's normalized rows. -/
theorem NP_norm_rows_mode (input : List CsvRow) (o : NormRow)
    (ho : o ∈ NP.norm_rows input) :
    o.mode ∉ NP.EXCLUDE_MODES ∧ ∃ c ∈ input, o.mode = NP.standardize_mode c.mode := by
  simp only [NP.norm_rows, NP.normalize_against_baseline, List.mem_map] at ho
  obtain ⟨r, hr, rfl⟩ := ho
  simp only [NP.processed, List.mem_map, List.mem_filter, decide_eq_true_eq] at hr
  obtain ⟨c1, ⟨⟨c0, hc0, rfl⟩, hf⟩, rfl⟩ := hr
  exact ⟨hf, c0, hc0, rfl⟩

/-- Rows selected for a chart slice are rows of the underlying table. -/
theorem filter_ref_all_modes_subset (df : List NormRow) (o : NormRow)
    (ho : o ∈ NP.filter_ref_knobs_all_modes df) : o ∈ df := by
  simp only [NP.filter_ref_knobs_all_modes] at ho
  split_ifs at ho with h
  · cases ho
  · rcases List.mem_flatten.mp ho with ⟨part, hpart, hop⟩
    rcases List.mem_map.mp hpart with ⟨m, -, rfl⟩
    rw [NP_filter_ref_eq] at hop
    exact (List.mem_filter.mp hop).1

/-- C9: no row whose whitespace-stripped lowercased mode is in the excluded
set appears in the normalizer's output table, in the plot script's
normalized table, or in the chart-input slices built from it. -/
theorem C9_excluded_modes_absent :
    ∀ input : List CsvRow,
      (∀ o ∈ ND.main_rows input,
        o.mode ∉ ND.EXCLUDE_MODES ∧ ND.standardize_mode o.mode ∉ ND.EXCLUDE_MODES)
      ∧ (∀ o ∈ NP.norm_rows input,
        o.mode ∉ NP.EXCLUDE_MODES ∧ NP.standardize_mode o.mode ∉ NP.EXCLUDE_MODES)
      ∧ (∀ o ∈ NP.filter_ref_knobs_all_modes (NP.norm_rows input),
        o.mode ∉ NP.EXCLUDE_MODES ∧ NP.standardize_mode o.mode ∉ NP.EXCLUDE_MODES) := by
  intro input
  have hnd : ∀ o ∈ ND.main_rows input,
      o.mode ∉ ND.EXCLUDE_MODES ∧ ND.standardize_mode o.mode ∉ ND.EXCLUDE_MODES := by
    intro o ho
    obtain ⟨h1, c0, -, he⟩ := ND_main_rows_mode input o ho
    refine ⟨h1, ?_⟩
    rw [he, show ND.standardize_mode (ND.standardize_mode c0.mode)
        = ND.standardize_mode c0.mode from strip_lower_idem c0.mode]
    exact he ▸ h1
  have hnp : ∀ o ∈ NP.norm_rows input,
      o.mode ∉ NP.EXCLUDE_MODES ∧ NP.standardize_mode o.mode ∉ NP.EXCLUDE_MODES := by
    intro o ho
    obtain ⟨h1, c0, -, he⟩ := NP_norm_rows_mode input o ho
    refine ⟨h1, ?_⟩
    rw [he, show NP.standardize_mode (NP.standardize_mode c0.mode)
        = NP.standardize_mode c0.mode from strip_lower_idem c0.mode]
    exact he ▸ h1
  exact ⟨hnd, hnp, fun o ho => hnp o (filter_ref_all_modes_subset _ o ho)⟩

/-- Witness for C9: on an input containing a whitespace-and-case variant of
the excluded mode, the first surviving output row's mode is not excluded. -/
theorem C9_excluded_modes_absent_witness :
    ((ND.main_rows exInC9).headD defaultFinalRow).mode ∉ ND.EXCLUDE_MODES
    ∧ ND.standardize_mode ((ND.main_rows exInC9).headD defaultFinalRow).mode
        ∉ ND.EXCLUDE_MODES :=
  (C9_excluded_modes_absent exInC9).1 ((ND.main_rows exInC9).headD defaultFinalRow)
    (by decide)

end CacheSim
